import Mathlib

/-!
Formal model of `book_movie_matcher.py` (Book–Movie Matcher) and proofs of the
specification claims about it.  Python strings are modelled as Lean `String`
(lists of characters); the character classes of the regexes are modelled over
the ASCII range, which is the range the program's regex classes
(`[A-Za-z0-9\s\-\'\"!?.,]`) name explicitly.
-/

namespace BookMovieMatcher

/-- Whitespace as matched by the regex class `\s` and by `str.strip()`:
space, tab, newline, carriage return, vertical tab, form feed. -/
def isPySpace (c : Char) : Bool :=
  c = ' ' || c = '\t' || c = '\n' || c = '\r' || c = '\x0b' || c = '\x0c'

/-- The apostrophe character (codepoint 39). -/
def aposChar : Char := Char.ofNat 39

/-- The double-quote character (codepoint 34). -/
def quoteChar : Char := Char.ofNat 34

/-- Membership in the regex character class `[A-Za-z0-9\s\-\'\"!?.,]` used by
both `tidy` (negated, for deletion) and `valid`. -/
def isAllowed (c : Char) : Bool :=
  c.isAlpha || c.isDigit || isPySpace c || c = '-' || c = aposChar ||
  c = quoteChar || c = '!' || c = '?' || c = '.' || c = ','

/-- Model of `txt.strip()`: remove leading and trailing whitespace. -/
def pyStrip (l : List Char) : List Char :=
  ((l.dropWhile isPySpace).reverse.dropWhile isPySpace).reverse

/-- Model of `re.sub(r"\s+", " ", txt)`: scanning left to right, a whitespace
character opening a run (previous character not whitespace, tracked by the
Boolean state) is replaced by a single space and the rest of the run is
dropped, so each maximal whitespace run becomes one space. -/
def collapseWS : Bool → List Char → List Char
  | _, [] => []
  | prevWs, c :: rest =>
    if isPySpace c then
      if prevWs then collapseWS true rest
      else ' ' :: collapseWS true rest
    else c :: collapseWS false rest

/-- Model of `tidy` (`book_movie_matcher.py` lines 54–58): strip, collapse
whitespace runs, then delete every character outside the allowed class
(`re.sub(r"[^A-Za-z0-9\s\-\'\"!?.,]", "", txt)`). -/
def tidy (txt : String) : String :=
  String.mk ((collapseWS false (pyStrip txt.data)).filter isAllowed)

/-- Model of `valid` (`book_movie_matcher.py` lines 61–62):
`bool(re.match(r"^[A-Za-z0-9\s\-\'\"!?.,]+$", txt))`.  The `+` demands at
least one character; since `\n` itself belongs to the class, the Python
subtlety that `$` also matches before a trailing newline changes nothing, and
the regex matches exactly the non-empty strings all of whose characters lie
in the class. -/
def valid (txt : String) : Bool :=
  !txt.data.isEmpty && txt.data.all isAllowed

/-- Spec-side formulation of run collapsing, written directly from the words
"collapses each internal whitespace run to a single space": the head of a
whitespace run becomes one space and the remainder of the run
(`dropWhile isPySpace`) is discarded. -/
def collapseRuns : List Char → List Char
  | [] => []
  | c :: rest =>
    if isPySpace c then ' ' :: collapseRuns (rest.dropWhile isPySpace)
    else c :: collapseRuns rest
termination_by l => l.length
decreasing_by
  · exact Nat.lt_succ_of_le (List.dropWhile_sublist isPySpace).length_le
  · simp

/-- Spec-side `normalize`: trim, collapse whitespace runs, strip characters
outside the allowed set, in that order. -/
def normalizeSpec (s : String) : String :=
  String.mk ((collapseRuns (pyStrip s.data)).filter isAllowed)

theorem collapseWS_eq_collapseRuns (l : List Char) :
    collapseWS false l = collapseRuns l ∧
      collapseWS true l = collapseRuns (l.dropWhile isPySpace) := by
  induction l with
  | nil => exact ⟨by simp [collapseWS, collapseRuns], by simp [collapseWS, collapseRuns]⟩
  | cons c rest ih =>
    by_cases h : isPySpace c
    · exact ⟨by simp [collapseWS, collapseRuns, h, ih.2],
        by simp [collapseWS, collapseRuns, List.dropWhile_cons, h, ih.2]⟩
    · exact ⟨by simp [collapseWS, collapseRuns, h, ih.1],
        by simp [collapseWS, collapseRuns, List.dropWhile_cons, h, ih.1]⟩

/-- C6: `tidy` trims leading/trailing whitespace, collapses each internal
whitespace run to a single space, and removes every character outside the
allowed set, and `tidy "   Inception!!    " = "Inception!!"`. -/
theorem tidy_matches_normalize :
    (∀ s : String, tidy s = normalizeSpec s) ∧
      tidy ("   Inception!!    ") = ("Inception!!") := by
  constructor
  · intro s
    unfold tidy normalizeSpec
    rw [(collapseWS_eq_collapseRuns (pyStrip s.data)).1]
  · decide

/-- C7 counterexample: the claim quantifies over every string including the
empty one, but `valid ""` is `false` even though every character of `""`
(vacuously) belongs to the allowed set. -/
theorem valid_empty_counterexample :
    valid ("") = false ∧ (("") : String).data.all isAllowed = true := by
  decide

/-- C7 amended: for every non-empty string, `valid` returns true iff every
character belongs to the allowed set; `valid "Harry Potter"` is true and
`valid "Mov!e@#?%*"` is false. -/
theorem valid_iff_all_allowed :
    (∀ s : String, s ≠ ("") → (valid s = true ↔ s.data.all isAllowed = true)) ∧
      valid ("Harry Potter") = true ∧ valid ("Mov!e@#?%*") = false := by
  refine ⟨?_, by decide, by decide⟩
  intro s hs
  have hd : s.data ≠ [] := by
    intro h
    exact hs (by cases s; simp_all)
  simp [valid, hd]

theorem valid_iff_all_allowed_witness :
    (("Harry Potter") : String) ≠ ("") ∧
      (valid ("Harry Potter") = true ↔
        (("Harry Potter") : String).data.all isAllowed = true) :=
  ⟨by decide, valid_iff_all_allowed.1 _ (by decide)⟩

/-- C10: whenever `tidy` yields a non-empty string, `valid` accepts it —
validation after normalization only rejects inputs normalizing to `""`. -/
theorem valid_of_tidy_ne_empty (s : String) (h : tidy s ≠ ("")) :
    valid (tidy s) = true := by
  have hall : (tidy s).data.all isAllowed = true := by
    rw [List.all_eq_true]
    intro c hc
    have : c ∈ (collapseWS false (pyStrip s.data)).filter isAllowed := hc
    exact (List.mem_filter.mp this).2
  have hd : (tidy s).data ≠ [] := by
    intro hnil
    apply h
    cases hmk : tidy s
    simp_all
  simp [valid, hd, hall]

theorem valid_of_tidy_ne_empty_witness :
    tidy ("Inception") ≠ ("") ∧ valid (tidy ("Inception")) = true :=
  ⟨by decide, valid_of_tidy_ne_empty _ (by decide)⟩

/-- Model of the `Book` class: title, author, genre, description and source
(`"csv"` or `"web"`). -/
structure Book where
  title : String
  author : String
  genre : String
  description : String
  source : String
  deriving DecidableEq

/-- A row of the dataset file `books_movies.csv`, as read by `csv.DictReader`
with the columns the program accesses. -/
structure CsvRow where
  movie_title : String
  book_title : String
  book_author : String
  book_genre : String
  book_description : String
  deriving DecidableEq

/-- The `Book` built from a dataset row in `load_csv`, tagged `source="csv"`. -/
def rowBook (r : CsvRow) : Book :=
  ⟨r.book_title, r.book_author, r.book_genre, r.book_description, "csv"⟩

/-- Model of Python `str.lower()`, character by character. -/
def pyLower (s : String) : String :=
  String.mk (s.data.map Char.toLower)

/-- The in-memory catalog: a Python dict modelled as an association list in
insertion order (`dict` preserves insertion order). -/
abbrev Catalog := List (String × List Book)

/-- Model of `data.setdefault(key, []).append(book)`: append the book to the
entry for `key`, creating the entry at the end if the key is absent. -/
def setdefaultAppend : Catalog → String → Book → Catalog
  | [], k, b => [(k, [b])]
  | e :: rest, k, b =>
    if e.1 = k then (e.1, e.2 ++ [b]) :: rest
    else e :: setdefaultAppend rest k b

/-- Model of `load_csv` (lines 67–84): fold over the dataset rows, keying each
book under the lower-cased movie title.  The missing-file case yields `[]`. -/
def load_csv (rows : List CsvRow) : Catalog :=
  rows.foldl (fun d r => setdefaultAppend d (pyLower r.movie_title) (rowBook r)) []

/-- Model of `dataset.get(key, [])`. -/
def getEntry (k : String) : Catalog → List Book
  | [] => []
  | e :: rest => if e.1 = k then e.2 else getEntry k rest

/-- Model of `from_local` (lines 87–88):
`dataset.get(movie.lower(), [])[:minimum]`. -/
def from_local (movie : String) (dataset : Catalog) (minimum : Nat) : List Book :=
  (getEntry (pyLower movie) dataset).take minimum

theorem getEntry_setdefaultAppend (d : Catalog) (k k' : String) (b : Book) :
    getEntry k (setdefaultAppend d k' b) =
      if k' = k then getEntry k d ++ [b] else getEntry k d := by
  induction d with
  | nil =>
    by_cases h : k' = k <;> simp [setdefaultAppend, getEntry, h]
  | cons e rest ih =>
    by_cases he : e.1 = k'
    · by_cases hk : k' = k
      · subst hk
        simp [setdefaultAppend, getEntry, he]
      · have : e.1 ≠ k := by rw [he]; exact hk
        simp [setdefaultAppend, getEntry, he, this, hk]
    · by_cases hek : e.1 = k
      · have hkk : k' ≠ k := by intro h; exact he (hek.trans h.symm)
        have hkk' : ¬ k = k' := fun h => hkk h.symm
        simp [setdefaultAppend, getEntry, he, hek, hkk, hkk']
      · simp [setdefaultAppend, getEntry, he, hek, ih]

theorem getEntry_load_csv_aux (rows : List CsvRow) (d : Catalog) (k : String) :
    getEntry k (rows.foldl
        (fun d r => setdefaultAppend d (pyLower r.movie_title) (rowBook r)) d) =
      getEntry k d ++
        (rows.filter (fun r => pyLower r.movie_title = k)).map rowBook := by
  induction rows generalizing d with
  | nil => simp
  | cons r rest ih =>
    rw [List.foldl_cons, ih, getEntry_setdefaultAppend]
    by_cases h : pyLower r.movie_title = k
    · simp [List.filter_cons, h, List.append_assoc]
    · simp [List.filter_cons, h]

/-- The books stored under key `k` by `load_csv` are exactly the books of the
rows whose lower-cased movie title is `k`, in dataset order. -/
theorem getEntry_load_csv (rows : List CsvRow) (k : String) :
    getEntry k (load_csv rows) =
      (rows.filter (fun r => pyLower r.movie_title = k)).map rowBook := by
  rw [load_csv, getEntry_load_csv_aux]
  rfl

/-- C5: on a catalog built by `load_csv`, `from_local` matches the movie title
case-insensitively and exactly, returns at most `limit` items in dataset
order, agrees on titles equal up to case, and yields `[]` for absent titles. -/
theorem from_local_spec :
    (∀ (rows : List CsvRow) (title : String) (limit : Nat),
       from_local title (load_csv rows) limit =
         ((rows.filter
             (fun r => pyLower r.movie_title = pyLower title)).map rowBook).take
           limit) ∧
    (∀ (rows : List CsvRow) (title : String) (limit : Nat),
       (from_local title (load_csv rows) limit).length ≤ limit) ∧
    (∀ (rows : List CsvRow) (t t' : String) (limit : Nat),
       pyLower t = pyLower t' →
         from_local t (load_csv rows) limit = from_local t' (load_csv rows) limit) ∧
    (∀ (rows : List CsvRow) (title : String) (limit : Nat),
       (∀ r ∈ rows, pyLower r.movie_title ≠ pyLower title) →
         from_local title (load_csv rows) limit = []) := by
  have hchar : ∀ (rows : List CsvRow) (title : String) (limit : Nat),
      from_local title (load_csv rows) limit =
        ((rows.filter
            (fun r => pyLower r.movie_title = pyLower title)).map rowBook).take
          limit := by
    intro rows title limit
    rw [from_local, getEntry_load_csv]
  refine ⟨hchar, ?_, ?_, ?_⟩
  · intro rows title limit
    rw [from_local]
    exact (List.length_take _ _).le.trans (Nat.min_le_left _ _)
  · intro rows t t' limit h
    rw [from_local, from_local, h]
  · intro rows title limit h
    rw [hchar]
    have : rows.filter (fun r => pyLower r.movie_title = pyLower title) = [] := by
      rw [List.filter_eq_nil_iff]
      intro r hr
      simp [h r hr]
    rw [this]
    simp

/-- Sample dataset rows used to instantiate the hypotheses of the theorems. -/
def sampleRows : List CsvRow :=
  [⟨"Inception", "The Dream Book", "A. Writer", "Sci-fi", "About dreams"⟩]

theorem from_local_spec_witness :
    pyLower ("Inception") = pyLower ("INCEPTION") ∧
      from_local ("Inception") (load_csv sampleRows) 4 =
        from_local ("INCEPTION") (load_csv sampleRows) 4 :=
  ⟨by decide, from_local_spec.2.2.1 sampleRows _ _ 4 (by decide)⟩

/-- A candidate scraped from the search-results page: the text of an
`a.bookTitle` anchor, together with the author name resolved from the
surrounding structure (`find_parent("tr")`, then an `authorName` span);
`author = none` models a missing parent row or a missing author tag. -/
structure Candidate where
  title : String
  author : Option String
  deriving DecidableEq

/-- Substring test over character lists, modelling Python's `sub in hay`. -/
def isSubstring (sub : List Char) : List Char → Bool
  | [] => sub.isEmpty
  | c :: rest => sub.isPrefixOf (c :: rest) || isSubstring sub rest

/-- The denylist of junk-title substrings (line 112). -/
def bad_words : List String :=
  ["colour", "coloring", "diary", "activity", "guide"]

/-- Model of `any(b in title.lower() for b in bad_words)` (line 113). -/
def isBadTitle (title : String) : Bool :=
  bad_words.any (fun b => isSubstring b.data (pyLower title).data)

/-- The per-candidate filter of the scraping loop (lines 108–127): drop the
candidate when its title contains a denylisted substring, and drop it when
the author stays `"Unknown"` — which happens when no parent row or author tag
exists (`author = none`) and also when the scraped tag text is literally
`"Unknown"`.  An accepted candidate becomes a `Book` with the caller's genre,
the fixed placeholder description, and `source = "web"` (line 128). -/
def acceptCandidate (genre : String) (c : Candidate) : Option Book :=
  if isBadTitle c.title then none
  else
    match c.author with
    | none => none
    | some a =>
      if a = ("Unknown") then none
      else some ⟨c.title, a, genre, "Found via Goodreads lookup", "web"⟩

/-- The collection loop of `fetch_data_from_web`: accepted books accumulate
in order, and after each acceptance the loop breaks as soon as
`len(collected) >= count` (lines 129–130). -/
def collectBooks (genre : String) (count : Nat) :
    List Candidate → List Book → List Book
  | [], acc => acc
  | c :: rest, acc =>
    match acceptCandidate genre c with
    | none => collectBooks genre count rest acc
    | some b =>
      if count ≤ (acc ++ [b]).length then acc ++ [b]
      else collectBooks genre count rest (acc ++ [b])

/-- Outcome of the transport-and-parse phase (lines 99–103): `failure` models
any exception raised by `requests.get` or `BeautifulSoup` (all swallowed by
the bare `except`), `success` carries the candidates parsed from the
`a.bookTitle` anchors in document order. -/
inductive WebOutcome where
  | failure
  | success (candidates : List Candidate)
  deriving DecidableEq

/-- Model of `fetch_data_from_web` (lines 94–132): `[]` on transport failure,
otherwise the collection loop over the first 8 candidates
(`soup.select("a.bookTitle")[:8]`). -/
def fetch_data_from_web (outcome : WebOutcome) (genre : String) (count : Nat) :
    List Book :=
  match outcome with
  | .failure => []
  | .success cands => collectBooks genre count (cands.take 8) []

theorem collectBooks_eq (genre : String) (count : Nat) (l : List Candidate) :
    ∀ acc : List Book, acc.length < count →
      collectBooks genre count l acc =
        acc ++ (l.filterMap (acceptCandidate genre)).take (count - acc.length) := by
  induction l with
  | nil => intro acc h; simp [collectBooks]
  | cons c rest ih =>
    intro acc h
    cases hac : acceptCandidate genre c with
    | none => simp [collectBooks, hac, ih acc h]
    | some b =>
      by_cases hstop : count ≤ (acc ++ [b]).length
      · have hc : count - acc.length = 1 := by
          simp only [List.length_append, List.length_cons, List.length_nil] at hstop
          omega
        rw [collectBooks]
        simp only [hac]
        rw [if_pos hstop, List.filterMap_cons_some hac, hc, List.take_succ_cons,
          List.take_zero]
      · have h2 : (acc ++ [b]).length < count := Nat.lt_of_not_le hstop
        have hsub : count - acc.length = (count - (acc ++ [b]).length) + 1 := by
          simp only [List.length_append, List.length_cons, List.length_nil] at h2 ⊢
          omega
        rw [collectBooks]
        simp only [hac]
        rw [if_neg hstop, ih _ h2, List.filterMap_cons_some hac, hsub,
          List.take_succ_cons, List.append_assoc, List.singleton_append]

/-- C3: the external fetch is a total function into plain lists of items and
yields `[]` on any transport or parse failure — that path never propagates
an error to the caller. -/
theorem fetch_failure_yields_empty :
    (∀ (genre : String) (count : Nat),
       fetch_data_from_web WebOutcome.failure genre count = []) ∧
      ∀ (outcome : WebOutcome) (genre : String) (count : Nat),
        ∃ books : List Book, fetch_data_from_web outcome genre count = books :=
  ⟨fun _ _ => rfl, fun _ _ _ => ⟨_, rfl⟩⟩

/-- C2 fails at requested count 0: the loop checks the stop condition only
after accepting a candidate, so a request for 0 books still accepts and
returns one book instead of stopping at the already-reached count. -/
theorem fetch_count_zero_counterexample :
    fetch_data_from_web
        (WebOutcome.success [⟨"Dune", some ("Frank Herbert")⟩]) ("Sci-fi") 0 =
      [⟨"Dune", "Frank Herbert", "Sci-fi", "Found via Goodreads lookup", "web"⟩] ∧
      0 < (fetch_data_from_web
        (WebOutcome.success [⟨"Dune", some ("Frank Herbert")⟩]) ("Sci-fi") 0).length := by
  constructor
  · decide
  · decide

/-- C2 amended: for every requested count ≥ 1, the external filter equals:
take the first 8 candidates in document order, drop those whose title
contains a denylist substring case-insensitively and those with no resolvable
author (`acceptCandidate`), and truncate to the first `count` accepted
candidates, so later candidates contribute nothing; a candidate titled
"Inception Coloring Book" is dropped and a candidate with no resolvable
author is dropped. -/
theorem fetch_filter_spec :
    (∀ (cands : List Candidate) (genre : String) (count : Nat), 1 ≤ count →
       fetch_data_from_web (WebOutcome.success cands) genre count =
         ((cands.take 8).filterMap (acceptCandidate genre)).take count) ∧
      acceptCandidate ("Fiction") ⟨"Inception Coloring Book", some ("A. Writer")⟩ =
        none ∧
      acceptCandidate ("Fiction") ⟨"Dune", none⟩ = none := by
  refine ⟨?_, by decide, by decide⟩
  intro cands genre count h
  rw [fetch_data_from_web]
  rw [collectBooks_eq genre count _ [] (by simpa using h)]
  simp

theorem fetch_filter_spec_witness :
    1 ≤ 2 ∧
      fetch_data_from_web
          (WebOutcome.success [⟨"Dune", some ("Frank Herbert")⟩]) ("Sci-fi") 2 =
        ((([⟨"Dune", some ("Frank Herbert")⟩] :
            List Candidate).take 8).filterMap (acceptCandidate ("Sci-fi"))).take 2 :=
  ⟨by decide, fetch_filter_spec.1 _ _ 2 (by decide)⟩

theorem fetch_length_le (outcome : WebOutcome) (genre : String) (count : Nat)
    (h : 1 ≤ count) :
    (fetch_data_from_web outcome genre count).length ≤ count := by
  cases outcome with
  | failure => simp [fetch_data_from_web]
  | success cands =>
    rw [fetch_data_from_web,
      collectBooks_eq genre count _ [] (by simp only [List.length_nil]; omega)]
    simp only [List.nil_append]
    exact (List.length_take _ _).le.trans (Nat.min_le_left _ _)

/-- Model of the aggregation step of `main` (lines 269–274): up to 4 items
from the local catalog, then, only when fewer than 4 were found, up to 2
items fetched from the web appended behind them. -/
def recommend (dataset : Catalog) (movieTitle genre : String) (web : WebOutcome) :
    List Book :=
  let recs := from_local movieTitle dataset 4
  if recs.length < 4 then recs ++ fetch_data_from_web web genre 2 else recs

/-- C1: the aggregation fetches up to `localMinimum = 4` local items; the
external lookup is consulted iff the local count is strictly below 4, and
then up to `externalCount = 2` external items are appended after the local
items unchanged; with at least 4 local items for the title the result is
exactly the local items. -/
theorem recommend_spec :
    (∀ (dataset : Catalog) (movieTitle genre : String) (web : WebOutcome),
       recommend dataset movieTitle genre web =
         from_local movieTitle dataset 4 ++
           (if (from_local movieTitle dataset 4).length < 4
            then fetch_data_from_web web genre 2 else [])) ∧
    (∀ (dataset : Catalog) (movieTitle : String),
       (from_local movieTitle dataset 4).length ≤ 4) ∧
    (∀ (web : WebOutcome) (genre : String),
       (fetch_data_from_web web genre 2).length ≤ 2) ∧
    (∀ (dataset : Catalog) (movieTitle genre : String) (web : WebOutcome),
       4 ≤ (getEntry (pyLower movieTitle) dataset).length →
         recommend dataset movieTitle genre web = from_local movieTitle dataset 4) := by
  refine ⟨?_, ?_, ?_, ?_⟩
  · intro dataset movieTitle genre web
    rw [recommend]
    by_cases h : (from_local movieTitle dataset 4).length < 4 <;> simp [h]
  · intro dataset movieTitle
    rw [from_local]
    exact (List.length_take _ _).le.trans (Nat.min_le_left _ _)
  · intro web genre
    exact fetch_length_le web genre 2 (by decide)
  · intro dataset movieTitle genre web h
    have hlen : (from_local movieTitle dataset 4).length = 4 := by
      rw [from_local, List.length_take]
      omega
    rw [recommend]
    simp [hlen]

/-- A catalog holding four local items under the key `"inception"`, used to
instantiate the boundary case of the aggregation theorem. -/
def catalogFour : Catalog :=
  [("inception",
    [⟨"B1", "A1", "G", "D", "csv"⟩, ⟨"B2", "A2", "G", "D", "csv"⟩,
     ⟨"B3", "A3", "G", "D", "csv"⟩, ⟨"B4", "A4", "G", "D", "csv"⟩])]

theorem recommend_spec_witness :
    4 ≤ (getEntry (pyLower ("Inception")) catalogFour).length ∧
      recommend catalogFour ("Inception") ("G")
          (WebOutcome.success [⟨"Dune", some ("Frank Herbert")⟩]) =
        from_local ("Inception") catalogFour 4 :=
  ⟨by decide, recommend_spec.2.2.2 catalogFour _ _ _ (by decide)⟩

/-- Model of the `Movie` class: a validated title with a genre string. -/
structure Movie where
  title : String
  genre : String
  deriving DecidableEq

/-- A row of the `history` table: `id` (AUTOINCREMENT), `user`, `movie`,
`genre`, and the `time` column filled with the write-time timestamp
(`CURRENT_TIMESTAMP`), modelled as a natural number. -/
structure HistoryRow where
  id : Nat
  user : String
  movie : String
  genre : String
  time : Nat
  deriving DecidableEq

/-- A row of the `books` table as the program inserts and reads it:
`INSERT INTO books(sid,title,author,source)` — the table's own `id` column is
never selected by the program and is omitted from the model. -/
structure BookRow where
  sid : Nat
  title : String
  author : String
  source : String
  deriving DecidableEq

/-- The SQLite file `project.db`: the two tables plus the AUTOINCREMENT
sequence for `history` (SQLite assigns `max used id + 1`, tracked here as
`historySeq`). -/
structure DBState where
  history : List HistoryRow
  books : List BookRow
  historySeq : Nat
  deriving DecidableEq

/-- Well-formedness maintained by the store: every assigned `history.id` and
every `books.sid` reference stays within the id sequence. -/
def dbWF (db : DBState) : Prop :=
  (∀ h ∈ db.history, h.id ≤ db.historySeq) ∧ ∀ b ∈ db.books, b.sid ≤ db.historySeq

instance (db : DBState) : Decidable (dbWF db) := by
  unfold dbWF
  infer_instance

/-- Model of `save` (lines 161–174): one `history` row with a fresh id
(`cursor.lastrowid`) and the write-time timestamp, then one `books` row per
recommended book carrying that id as `sid`, committed together. -/
def save (user : String) (movie : Movie) (book_list : List Book) (now : Nat)
    (db : DBState) : DBState :=
  let sid := db.historySeq + 1
  { history := db.history ++ [⟨sid, user, movie.title, movie.genre, now⟩]
    books := db.books ++ book_list.map (fun b => ⟨sid, b.title, b.author, b.source⟩)
    historySeq := sid }

/-- The `SELECT title,author,source FROM books WHERE sid=?` query of
`show_records` (line 194). -/
def booksFor (sid : Nat) (db : DBState) : List (String × String × String) :=
  (db.books.filter (fun b => b.sid = sid)).map (fun b => (b.title, b.author, b.source))

/-- Model of the reading pass of `show_records` (lines 179–199): every
`history` row in insertion order together with its associated book rows. -/
def show_records (db : DBState) :
    List (Nat × String × String × String × Nat × List (String × String × String)) :=
  db.history.map (fun h => (h.id, h.user, h.movie, h.genre, h.time, booksFor h.id db))

theorem booksFor_save_new (user : String) (movie : Movie) (items : List Book)
    (now : Nat) (db : DBState) (hwf : dbWF db) :
    booksFor (db.historySeq + 1) (save user movie items now db) =
      items.map (fun b => (b.title, b.author, b.source)) := by
  rw [booksFor, save]
  simp only [List.filter_append]
  have hold : db.books.filter (fun b => b.sid = db.historySeq + 1) = [] := by
    rw [List.filter_eq_nil_iff]
    intro b hb
    have := hwf.2 b hb
    simp only [decide_eq_true_eq]
    omega
  have hnew : (items.map
      (fun b => (⟨db.historySeq + 1, b.title, b.author, b.source⟩ : BookRow))).filter
        (fun b => b.sid = db.historySeq + 1) =
      items.map (fun b => ⟨db.historySeq + 1, b.title, b.author, b.source⟩) := by
    rw [List.filter_eq_self]
    intro b hb
    obtain ⟨x, _, rfl⟩ := List.mem_map.mp hb
    simp
  rw [hold, hnew]
  simp [List.map_map, Function.comp_def]

theorem booksFor_save_old (user : String) (movie : Movie) (items : List Book)
    (now : Nat) (db : DBState) (sid : Nat)
    (hsid : sid ≤ db.historySeq) :
    booksFor sid (save user movie items now db) = booksFor sid db := by
  rw [booksFor, booksFor, save]
  simp only [List.filter_append]
  have hnew : (items.map
      (fun b => (⟨db.historySeq + 1, b.title, b.author, b.source⟩ : BookRow))).filter
        (fun b => b.sid = sid) = [] := by
    rw [List.filter_eq_nil_iff]
    intro b hb
    obtain ⟨x, _, rfl⟩ := List.mem_map.mp hb
    simp only [decide_eq_true_eq]
    omega
  rw [hnew]
  simp

/-- C4: `save` atomically appends exactly one history row — carrying a fresh
identifier strictly greater than every existing one and the write-time
timestamp — together with one book row per item, and a subsequent
`show_records` read round-trips exactly: older records are unchanged and the
new record reports the user, movie title, genre and each item's
title/author/source as passed to `save`. -/
theorem save_round_trip :
    ∀ (user : String) (movie : Movie) (items : List Book) (now : Nat)
      (db : DBState), dbWF db →
      show_records (save user movie items now db) =
          show_records db ++
            [(db.historySeq + 1, user, movie.title, movie.genre, now,
              items.map (fun b => (b.title, b.author, b.source)))] ∧
      (∀ h ∈ db.history, h.id < db.historySeq + 1) ∧
      (save user movie items now db).history =
          db.history ++ [⟨db.historySeq + 1, user, movie.title, movie.genre, now⟩] ∧
      (save user movie items now db).books =
          db.books ++
            items.map (fun b => ⟨db.historySeq + 1, b.title, b.author, b.source⟩) ∧
      dbWF (save user movie items now db) := by
  intro user movie items now db hwf
  refine ⟨?_, ?_, rfl, rfl, ?_, ?_⟩
  · rw [show_records, show_records, save]
    simp only [List.map_append, List.map_cons, List.map_nil]
    congr 1
    · apply List.map_congr_left
      intro h hh
      have := booksFor_save_old user movie items now db h.id (hwf.1 h hh)
      rw [save] at this
      rw [this]
    · have := booksFor_save_new user movie items now db hwf
      rw [save] at this
      rw [this]
  · intro h hh
    exact Nat.lt_succ_of_le (hwf.1 h hh)
  · intro h hh
    rcases List.mem_append.mp hh with hold | hnew
    · exact Nat.le_succ_of_le (hwf.1 h hold)
    · simp only [List.mem_singleton] at hnew
      rw [hnew]
      simp [save]
  · intro b hb
    rcases List.mem_append.mp hb with hold | hnew
    · exact Nat.le_succ_of_le (hwf.2 b hold)
    · obtain ⟨x, _, rfl⟩ := List.mem_map.mp hnew
      simp [save]

/-- An example store state with one saved search, used to instantiate the
round-trip theorem. -/
def sampleDB : DBState :=
  ⟨[⟨1, "Guest", "Inception", "Sci-fi", 10⟩],
    [⟨1, "The Dream Book", "A. Writer", "csv"⟩], 1⟩

/-- The value printed by `analysis_of_data`: either the distinct
"No of session statistics to show." branch for an empty session log, or the
two frequency summaries the function prints — genre counts in
first-encounter order and the top 3 authors. -/
inductive Report where
  | nothingToShow
  | stats (genres : List (String × Nat)) (topAuthors : List (String × Nat))
  deriving DecidableEq

/-- Model of counting one key into a `collections.Counter` (an
insertion-ordered dict): an existing entry is incremented in place, a new key
is appended at the end with count 1. -/
def bumpKey : List (String × Nat) → String → List (String × Nat)
  | [], k => [(k, 1)]
  | e :: rest, k => if e.1 = k then (e.1, e.2 + 1) :: rest else e :: bumpKey rest k

/-- Model of `Counter(iterable)`: fold the keys in iteration order. -/
def counterOf (l : List String) : List (String × Nat) :=
  l.foldl bumpKey []

/-- The count a counter records for `k` (0 when absent). -/
def getCount (k : String) : List (String × Nat) → Nat
  | [] => 0
  | e :: rest => if e.1 = k then e.2 else getCount k rest

/-- The order used by `Counter.most_common`: an entry precedes another when
its count is at least as large. -/
def countGe (a b : String × Nat) : Prop := b.2 ≤ a.2

instance : DecidableRel countGe := fun a b => Nat.decLe b.2 a.2

instance : IsTotal (String × Nat) countGe := ⟨fun a b => Nat.le_total b.2 a.2⟩

instance : IsTrans (String × Nat) countGe := ⟨fun _ _ _ h1 h2 => Nat.le_trans h2 h1⟩

/-- Model of `Counter.most_common(n)`: `heapq.nlargest` is a stable
descending selection — equal counts keep the counter's insertion order —
modelled as a stable insertion sort by descending count, truncated to `n`. -/
def most_common (n : Nat) (counter : List (String × Nat)) : List (String × Nat) :=
  (List.insertionSort countGe counter).take n

/-- The genre of each query, in session order (`obj.genre for obj, _ in data`). -/
def sessionGenres (data : List (Movie × List Book)) : List String :=
  data.map (fun p => p.1.genre)

/-- The author of every suggested book across the session, in order
(`b.author for _, lst in data for b in lst`). -/
def sessionAuthors (data : List (Movie × List Book)) : List String :=
  (data.map (fun p => p.2.map Book.author)).flatten

/-- Model of `analysis_of_data` (lines 204–220): the empty log takes the
early-return branch; otherwise the genre counter is printed in iteration
order and the author counter is reduced to `most_common(3)`. -/
def analysis_of_data (data : List (Movie × List Book)) : Report :=
  if data.isEmpty then Report.nothingToShow
  else
    Report.stats (counterOf (sessionGenres data))
      (most_common 3 (counterOf (sessionAuthors data)))

/-- C8: an empty session log is signalled by the distinct early-return
branch, not by a statistics report with empty aggregates. -/
theorem analysis_empty_distinct :
    analysis_of_data [] = Report.nothingToShow ∧
      Report.nothingToShow ≠ Report.stats [] [] := by
  exact ⟨rfl, by decide⟩

/-- First-encounter deduplication: keep a key iff it was not seen before. -/
def firstDedup (seen : List String) : List String → List String
  | [] => []
  | x :: rest =>
    if x ∈ seen then firstDedup seen rest else x :: firstDedup (seen ++ [x]) rest

theorem keys_bumpKey (acc : List (String × Nat)) (k : String) :
    (bumpKey acc k).map Prod.fst =
      if k ∈ acc.map Prod.fst then acc.map Prod.fst
      else acc.map Prod.fst ++ [k] := by
  induction acc with
  | nil => simp [bumpKey]
  | cons e rest ih =>
    by_cases he : e.1 = k
    · simp [bumpKey, he]
    · have hne : ¬ k = e.1 := fun h => he h.symm
      by_cases hmem : k ∈ rest.map Prod.fst
      · simp [bumpKey, he, ih, hne, hmem]
      · simp [bumpKey, he, ih, hne, hmem]

theorem getCount_bumpKey (acc : List (String × Nat)) (k k' : String) :
    getCount k (bumpKey acc k') = getCount k acc + if k' = k then 1 else 0 := by
  induction acc with
  | nil =>
    by_cases h : k' = k
    · subst h; simp [bumpKey, getCount]
    · simp [bumpKey, getCount, h]
  | cons e rest ih =>
    by_cases he : e.1 = k'
    · by_cases hek : e.1 = k
      · have hk : k' = k := he.symm.trans hek
        simp [bumpKey, getCount, he, hek, hk]
      · have hk : ¬ k' = k := fun h => hek (he.trans h)
        simp [bumpKey, getCount, he, hek, hk]
    · by_cases hek : e.1 = k
      · have hk : ¬ k' = k := fun h => he (hek.trans h.symm)
        have hk2 : ¬ k = k' := fun h => hk h.symm
        simp [bumpKey, getCount, he, hek, hk, hk2]
      · simp [bumpKey, getCount, he, hek, ih]

theorem keys_counter_aux (l : List String) :
    ∀ acc : List (String × Nat),
      (l.foldl bumpKey acc).map Prod.fst =
        acc.map Prod.fst ++ firstDedup (acc.map Prod.fst) l := by
  induction l with
  | nil => intro acc; simp [firstDedup]
  | cons k rest ih =>
    intro acc
    rw [List.foldl_cons, ih]
    simp only [keys_bumpKey]
    by_cases h : k ∈ acc.map Prod.fst
    · simp [h, firstDedup]
    · simp [h, firstDedup]

theorem getCount_counter_aux (l : List String) :
    ∀ (acc : List (String × Nat)) (k : String),
      getCount k (l.foldl bumpKey acc) = getCount k acc + l.count k := by
  induction l with
  | nil => intro acc k; simp [List.count_nil]
  | cons k' rest ih =>
    intro acc k
    rw [List.foldl_cons, ih, getCount_bumpKey, List.count_cons]
    by_cases h : k' = k
    · simp [h]
      omega
    · have h2 : ¬ k = k' := fun hh => h hh.symm
      simp [h, h2]

theorem filter_orderedInsert (c : Nat) (x : String × Nat)
    (l : List (String × Nat)) :
    (List.orderedInsert countGe x l).filter (fun e => e.2 = c) =
      if x.2 = c then x :: l.filter (fun e => e.2 = c)
      else l.filter (fun e => e.2 = c) := by
  induction l with
  | nil => by_cases h : x.2 = c <;> simp [List.orderedInsert, h]
  | cons y rest ih =>
    by_cases hr : countGe x y
    · by_cases hx : x.2 = c <;>
        simp [List.orderedInsert, List.filter_cons, hr, hx]
    · have hlt : x.2 < y.2 := Nat.lt_of_not_le hr
      by_cases hy : y.2 = c
      · have hx : ¬ x.2 = c := by omega
        simp [List.orderedInsert, List.filter_cons, hr, hy, hx, ih]
      · simp [List.orderedInsert, List.filter_cons, hr, hy, ih]

theorem filter_insertionSort (c : Nat) (l : List (String × Nat)) :
    (List.insertionSort countGe l).filter (fun e => e.2 = c) =
      l.filter (fun e => e.2 = c) := by
  induction l with
  | nil => simp
  | cons x rest ih =>
    rw [List.insertionSort, filter_orderedInsert]
    by_cases hx : x.2 = c <;> simp [List.filter_cons, hx, ih]

/-- C9: on a non-empty log the report consists of the genre counter —
distinct genres in first-encountered order, each with its number of queries —
and the top 3 of the author counter, obtained from a descending sort by count
that keeps tied entries in first-encountered order. -/
theorem analysis_nonempty_spec :
    ∀ data : List (Movie × List Book), data ≠ [] →
      analysis_of_data data =
          Report.stats (counterOf (sessionGenres data))
            (most_common 3 (counterOf (sessionAuthors data))) ∧
      (counterOf (sessionGenres data)).map Prod.fst =
          firstDedup [] (sessionGenres data) ∧
      (∀ g, getCount g (counterOf (sessionGenres data)) =
          (sessionGenres data).count g) ∧
      (counterOf (sessionAuthors data)).map Prod.fst =
          firstDedup [] (sessionAuthors data) ∧
      (∀ a, getCount a (counterOf (sessionAuthors data)) =
          (sessionAuthors data).count a) ∧
      most_common 3 (counterOf (sessionAuthors data)) =
          (List.insertionSort countGe (counterOf (sessionAuthors data))).take 3 ∧
      List.Sorted countGe
          (List.insertionSort countGe (counterOf (sessionAuthors data))) ∧
      ∀ c, (List.insertionSort countGe
              (counterOf (sessionAuthors data))).filter (fun e => e.2 = c) =
          (counterOf (sessionAuthors data)).filter (fun e => e.2 = c) := by
  intro data hne
  have hkeys : ∀ l : List String,
      (counterOf l).map Prod.fst = firstDedup [] l := by
    intro l
    rw [counterOf, keys_counter_aux]
    simp
  have hcount : ∀ (l : List String) (k : String),
      getCount k (counterOf l) = l.count k := by
    intro l k
    rw [counterOf, getCount_counter_aux]
    simp [getCount]
  refine ⟨?_, hkeys _, fun g => hcount _ g, hkeys _, fun a => hcount _ a, rfl,
    List.sorted_insertionSort countGe _, fun c => filter_insertionSort c _⟩
  rw [analysis_of_data, if_neg (by simpa using hne)]

/-- A one-query session log used to instantiate the reporter theorem. -/
def sessionSample : List (Movie × List Book) :=
  [(⟨"Inception", "Sci-fi"⟩,
    [⟨"The Dream Book", "A. Writer", "Sci-fi", "About dreams", "csv"⟩])]

theorem analysis_nonempty_spec_witness :
    sessionSample ≠ [] ∧
      (analysis_of_data sessionSample =
          Report.stats (counterOf (sessionGenres sessionSample))
            (most_common 3 (counterOf (sessionAuthors sessionSample))) ∧
        (counterOf (sessionGenres sessionSample)).map Prod.fst =
            firstDedup [] (sessionGenres sessionSample) ∧
        (∀ g, getCount g (counterOf (sessionGenres sessionSample)) =
            (sessionGenres sessionSample).count g) ∧
        (counterOf (sessionAuthors sessionSample)).map Prod.fst =
            firstDedup [] (sessionAuthors sessionSample) ∧
        (∀ a, getCount a (counterOf (sessionAuthors sessionSample)) =
            (sessionAuthors sessionSample).count a) ∧
        most_common 3 (counterOf (sessionAuthors sessionSample)) =
            (List.insertionSort countGe
              (counterOf (sessionAuthors sessionSample))).take 3 ∧
        List.Sorted countGe
            (List.insertionSort countGe (counterOf (sessionAuthors sessionSample))) ∧
        ∀ c, (List.insertionSort countGe
                (counterOf (sessionAuthors sessionSample))).filter
              (fun e => e.2 = c) =
            (counterOf (sessionAuthors sessionSample)).filter (fun e => e.2 = c)) :=
  ⟨by decide, analysis_nonempty_spec sessionSample (by decide)⟩

theorem save_round_trip_witness :
    dbWF sampleDB ∧
      show_records (save ("Ada") ⟨"Dune", "Sci-fi"⟩
            [⟨"Dune", "Frank Herbert", "Sci-fi", "Found via Goodreads lookup", "web"⟩]
            42 sampleDB) =
        show_records sampleDB ++
          [(sampleDB.historySeq + 1, "Ada", (⟨"Dune", "Sci-fi"⟩ : Movie).title,
            (⟨"Dune", "Sci-fi"⟩ : Movie).genre, 42,
            ([⟨"Dune", "Frank Herbert", "Sci-fi", "Found via Goodreads lookup",
              "web"⟩] : List Book).map (fun b => (b.title, b.author, b.source)))] :=
  ⟨by decide,
    (save_round_trip ("Ada") ⟨"Dune", "Sci-fi"⟩ _ 42 sampleDB (by decide)).1⟩

end BookMovieMatcher
